import Mathlib

/-!
Verification development for `pdf_watcher.py` (asadudin/pdf-watcher).

The repository is a single-file watchdog service: on creation of
`/images/input.pdf` it waits for the file size to become stable
(`PDFHandler.is_file_stable`), converts the PDF to one JPG per page via an
external ImageMagick subprocess, base64-encodes every page
(`PDFHandler.jpg_to_base64`), sends each encoded page to the Google Vision
OCR service and aggregates per-page text, a structured block/paragraph/
word/symbol tree and timing telemetry
(`PDFHandler.extract_text_from_b64_images`).

This file is a shallow embedding of that code:
* wall-clock instants are rationals (only compared, never otherwise used);
* file sizes are naturals, the `-1` sentinel of the source makes the
  remembered last size an `Int`;
* the unbounded polling loop of `is_file_stable` becomes a function over a
  finite trace of samples, returning `none` when the trace is exhausted
  with the loop still running;
* the external collaborators (ImageMagick, the Vision client, the
  filesystem) become explicit inputs: the directory listing, the
  per-filename OCR response, the per-filename I/O-failure flag and the
  per-page durations are fields of an environment record;
* writes of artifact files become an ordered trace of `Artifact` values.
-/

namespace PdfWatcher

/-! ## Stability gate: `PDFHandler.is_file_stable` (pdf_watcher.py lines 41-69)

The Python loop keeps `last_size` (initialised to `-1`) and `stable_start`
(initialised to `None`) and each tick reads the file size:
a `FileNotFoundError` returns `False`; size `0` just sleeps and continues;
a changed size updates `last_size` and restarts `stable_start`; an
unchanged size with `stable_start` set and at least `stable_period`
elapsed returns `True`.  A sample is `(Option Nat) × ℚ`: the observed size
(`none` when the stat raises) and the time of the tick. -/

/-- State carried between polling ticks of `is_file_stable`:
the Python locals `last_size` and `stable_start`. -/
structure StabState where
  lastSize : Int
  stableStart : Option ℚ
deriving DecidableEq

/-- Result of one polling tick: either the loop returns a boolean or it
continues with an updated state. -/
inductive StabOut where
  | ret (b : Bool)
  | cont (st : StabState)
deriving DecidableEq

/-- One iteration of the `while True` body of `PDFHandler.is_file_stable`.
The sample is the observed size (`none` models `FileNotFoundError`) paired
with the tick's `time.time()` value. -/
def stabStep (stablePeriod : ℚ) (st : StabState) (sample : Option Nat × ℚ) : StabOut :=
  match sample.1 with
  | none => .ret false
  | some sz =>
    if sz = 0 then .cont st
    else if (sz : Int) ≠ st.lastSize then .cont ⟨(sz : Int), some sample.2⟩
    else match st.stableStart with
      | some t0 => if sample.2 - t0 ≥ stablePeriod then .ret true else .cont st
      | none => .cont st

/-- `PDFHandler.is_file_stable` over a finite trace of samples.  `none`
means the trace ended with the loop still polling (the real loop is
unbounded). -/
def is_file_stable (stablePeriod : ℚ) (st : StabState) : List (Option Nat × ℚ) → Option Bool
  | [] => none
  | s :: rest =>
    match stabStep stablePeriod st s with
    | .ret b => some b
    | .cont st2 => is_file_stable stablePeriod st2 rest

/-- Initial state of the loop: `last_size = -1`, `stable_start = None`. -/
def initStab : StabState := ⟨-1, none⟩

/-- Default `stable_period=2.0` of the source. -/
def defaultStablePeriod : ℚ := 2

/-! ## Strings, Python `sorted`, and page-number parsing

Python strings are embedded as `List Char`; `str` comparison is
lexicographic by code point, and `sorted` is a stable sort with respect to
that comparison (modelled by insertion sort, which is stable). -/

/-- Python string `<=`: lexicographic comparison by code point. -/
def strLe : List Char → List Char → Bool
  | [], _ => true
  | _ :: _, [] => false
  | a :: as, b :: bs =>
    if a.toNat < b.toNat then true
    else if b.toNat < a.toNat then false
    else strLe as bs

/-- The Python builtin `sorted` on a list of strings: a stable sort by the
lexicographic order `strLe`. -/
def pySorted (l : List (List Char)) : List (List Char) :=
  List.insertionSort (fun a b => strLe a b = true) l

/-- Value of a decimal-digit string, as Python `int` computes it on its
intended inputs (the source only applies it to the digits parsed out of an
`output-<n>` filename). -/
def natOfDigits (l : List Char) : Nat :=
  l.foldl (fun acc c => acc * 10 + (c.toNat - 48)) 0

/-- `int(b64_file.split('-')[1].split('.')[0])` of
`PDFHandler.extract_text_from_b64_images` (line 246): the page number
embedded in an `output-<n>.b64` filename. -/
def parsePageNum (name : List Char) : Nat :=
  natOfDigits (((name.splitOn '-').getD 1 []).splitOn '.' |>.getD 0 [])

/-- The filter of line 230-233: `f.startswith('output-') and f.endswith('.b64')`. -/
def isB64Name (f : List Char) : Bool :=
  "output-".toList.isPrefixOf f && ".b64".toList.isSuffixOf f

/-- The filter of line 143-146: `f.startswith('output-') and f.endswith('.jpg')`. -/
def isJpgName (f : List Char) : Bool :=
  "output-".toList.isPrefixOf f && ".jpg".toList.isSuffixOf f

/-- Python `str.strip()` restricted to one side: drop trailing whitespace. -/
def rstripL (l : List Char) : List Char :=
  (l.reverse.dropWhile Char.isWhitespace).reverse

/-- Python `str.strip()`: drop leading and trailing whitespace. -/
def pyStrip (l : List Char) : List Char :=
  (rstripL l).dropWhile Char.isWhitespace

/-- Texts joined by single spaces, as the spec's §3/§4.4 words describe a
paragraph's text ("its words' texts joined by single spaces"). -/
def joinWithSpaces : List (List Char) → List Char
  | [] => []
  | [w] => w
  | w :: rest => w ++ ' ' :: joinWithSpaces rest

/-- Python `str.replace(pat, rep)` (all non-overlapping occurrences, left
to right), with explicit fuel to keep the recursion structural.  Used for
`jpg_file.replace('.jpg', '.b64')` (line 166). -/
def replaceAllAux (pat rep : List Char) : Nat → List Char → List Char
  | 0, s => s
  | _ + 1, [] => []
  | fuel + 1, c :: rest =>
    if pat.isPrefixOf (c :: rest) then
      rep ++ replaceAllAux pat rep fuel ((c :: rest).drop pat.length)
    else
      c :: replaceAllAux pat rep fuel rest

/-- Python `str.replace(pat, rep)`; the fuel `s.length` suffices because
every step consumes at least one character of a nonempty `pat` match or
copies one character. -/
def replaceAll (pat rep s : List Char) : List Char :=
  replaceAllAux pat rep s.length s

/-- `jpg_file.replace('.jpg', '.b64')` of line 166. -/
def b64Name (f : List Char) : List Char :=
  replaceAll ".jpg".toList ".b64".toList f

/-! ## Base64: `base64.b64encode` / `base64.b64decode`

`PDFHandler.jpg_to_base64` (lines 214-217) reads the page image bytes and
returns `base64.b64encode(bytes).decode("utf-8")`; the extraction stage
feeds `base64.b64decode(b64_content)` to the Vision client (line 253).
Bytes are naturals `< 256`; the encoded payload is the standard RFC 4648
alphabet with `=` padding. -/

/-- The base64 alphabet in encoding order. -/
def b64Chars : List Char :=
  "ABCDEFGHIJKLMNOPQRSTUVWXYZabcdefghijklmnopqrstuvwxyz0123456789+/".toList

/-- The character encoding a 6-bit group. -/
def encB64 (n : Nat) : Char := b64Chars.getD n 'A'

/-- The 6-bit group a base64 character stands for. -/
def decB64 (c : Char) : Nat := b64Chars.indexOf c

/-- `base64.b64encode`: three bytes become four alphabet characters; a
final group of one or two bytes is padded with `=`. -/
def b64encode : List Nat → List Char
  | [] => []
  | [a] => [encB64 (a / 4), encB64 (a % 4 * 16), '=', '=']
  | [a, b] => [encB64 (a / 4), encB64 (a % 4 * 16 + b / 16), encB64 (b % 16 * 4), '=']
  | a :: b :: c :: rest =>
    encB64 (a / 4) :: encB64 (a % 4 * 16 + b / 16) ::
      encB64 (b % 16 * 4 + c / 64) :: encB64 (c % 64) :: b64encode rest

/-- `base64.b64decode`: four characters back to three bytes, with the two
padded final-group forms. -/
def b64decode : List Char → List Nat
  | c1 :: c2 :: c3 :: c4 :: rest =>
    if c3 = '=' then [decB64 c1 * 4 + decB64 c2 / 16]
    else if c4 = '=' then
      [decB64 c1 * 4 + decB64 c2 / 16, decB64 c2 % 16 * 16 + decB64 c3 / 4]
    else
      (decB64 c1 * 4 + decB64 c2 / 16) :: (decB64 c2 % 16 * 16 + decB64 c3 / 4) ::
        (decB64 c3 % 4 * 64 + decB64 c4) :: b64decode rest
  | _ => []

/-- `PDFHandler.jpg_to_base64` applied to the bytes of the image file:
`base64.b64encode(img_file.read()).decode("utf-8")`. -/
def jpg_to_base64 (imageBytes : List Nat) : List Char := b64encode imageBytes

/-! ## The Vision annotation tree and the structured document model

`extract_text_from_b64_images` (lines 261-329) walks the response's
`full_text_annotation` and builds, per page, a dictionary with the page
number, the full text, and a list of block dictionaries; each block holds
paragraph dictionaries, each paragraph word dictionaries, each word symbol
dictionaries.  Confidence values are only copied, never computed with, so
they are embedded as an arbitrary type `α` (the source's floats). -/

/-- A bounding polygon as the Vision client delivers it: vertex
coordinates. -/
structure BoundingBox where
  vertices : List (Int × Int)
deriving DecidableEq

/-- Output of `PDFHandler._get_bounding_box` (lines 387-396): the
dictionary `{'vertices': [{'x': …, 'y': …}, …]}`. -/
structure BBoxData where
  vertices : List (Int × Int)
deriving DecidableEq

/-- `PDFHandler._get_bounding_box`: copies every vertex's `x` and `y`. -/
def get_bounding_box (b : BoundingBox) : BBoxData :=
  ⟨b.vertices.map (fun v => (v.1, v.2))⟩

/-- `symbol.property.detected_break`: the proto enum value, `0` meaning no
break was detected. -/
structure DetectedBreak where
  btype : Nat
deriving DecidableEq

/-- `symbol.property` as the source reads it. -/
structure SymbolProperty where
  detectedBreak : DetectedBreak
deriving DecidableEq

/-- A symbol of the Vision annotation tree. -/
structure VSymbol (α : Type) where
  text : List Char
  confidence : α
  property : SymbolProperty
deriving DecidableEq

/-- A word of the Vision annotation tree. -/
structure VWord (α : Type) where
  symbols : List (VSymbol α)
  confidence : α
  boundingBox : BoundingBox
deriving DecidableEq

/-- A paragraph of the Vision annotation tree. -/
structure VPara (α : Type) where
  words : List (VWord α)
  confidence : α
  boundingBox : BoundingBox
deriving DecidableEq

/-- A block of the Vision annotation tree. -/
structure VBlock (α : Type) where
  paragraphs : List (VPara α)
  confidence : α
  boundingBox : BoundingBox
deriving DecidableEq

/-- A page of the Vision annotation tree. -/
structure VPage (α : Type) where
  blocks : List (VBlock α)
deriving DecidableEq

/-- `response.full_text_annotation`: the overall text plus the pages. -/
structure FullTextAnnot (α : Type) where
  text : List Char
  pages : List (VPage α)
deriving DecidableEq

/-- A Vision `document_text_detection` response as the source consumes it:
`response.error.message` (empty string when no error) and the optional
full-text annotation (protobuf yields an all-empty message when the field
is unset, embedded as `none`). -/
structure VisionResponse (α : Type) where
  errMessage : List Char
  fullTextAnnot : Option (FullTextAnnot α)
deriving DecidableEq

/-- `vision.TextAnnotation.DetectedBreak.BreakType(n).name` for the enum
values of the Vision API. -/
def breakTypeName : Nat → List Char
  | 1 => "SPACE".toList
  | 2 => "SURE_SPACE".toList
  | 3 => "EOL_SURE_SPACE".toList
  | 4 => "HYPHEN".toList
  | 5 => "LINE_BREAK".toList
  | _ => "UNKNOWN".toList

/-- The symbol dictionary of lines 311-322: text and confidence always,
and a `break_type` key only when `symbol.property.detected_break.type`
is nonzero (`none` embeds the absent key). -/
structure SymbolData (α : Type) where
  text : List Char
  confidence : α
  breakType : Option (List Char)
deriving DecidableEq

/-- The word dictionary of lines 302-308. -/
structure WordData (α : Type) where
  wordId : Nat
  text : List Char
  confidence : α
  boundingBox : BBoxData
  symbols : List (SymbolData α)
deriving DecidableEq

/-- The paragraph dictionary of lines 289-294 and 326. -/
structure ParaData (α : Type) where
  paragraphId : Nat
  confidence : α
  boundingBox : BBoxData
  words : List (WordData α)
  text : List Char
deriving DecidableEq

/-- The block dictionary of lines 279-284. -/
structure BlockData (α : Type) where
  blockId : Nat
  confidence : α
  boundingBox : BBoxData
  paragraphs : List (ParaData α)
deriving DecidableEq

/-- The per-page dictionary of lines 269-273: page number, full text and
the blocks accumulated over every page of the annotation. -/
structure PageData (α : Type) where
  pageNumber : Nat
  fullText : List Char
  blocks : List (BlockData α)
deriving DecidableEq

/-- Lines 311-322: build one symbol dictionary; the `break_type` key is
added only when the detected break type is nonzero. -/
def buildSymbolData (s : VSymbol α) : SymbolData α :=
  ⟨s.text, s.confidence,
    if s.property.detectedBreak.btype ≠ 0 then
      some (breakTypeName s.property.detectedBreak.btype)
    else none⟩

/-- Line 298: `word_text = ''.join([symbol.text for symbol in word.symbols])`. -/
def wordText (w : VWord α) : List Char :=
  (w.symbols.map (fun s => s.text)).flatten

/-- Lines 297-324: build one word dictionary. -/
def buildWordData (i : Nat) (w : VWord α) : WordData α :=
  ⟨i, wordText w, w.confidence, get_bounding_box w.boundingBox,
    w.symbols.map buildSymbolData⟩

/-- Lines 297-299: the paragraph text accumulator before the final
`strip()` — every word's text followed by one space. -/
def paraTextRaw (ws : List (VWord α)) : List Char :=
  (ws.map (fun w => wordText w ++ [' '])).flatten

/-- Lines 287-327: build one paragraph dictionary; its `text` is the
accumulated `para_text.strip()`. -/
def buildParaData (i : Nat) (p : VPara α) : ParaData α :=
  ⟨i, p.confidence, get_bounding_box p.boundingBox,
    p.words.enum.map (fun x => buildWordData x.1 x.2),
    pyStrip (paraTextRaw p.words)⟩

/-- Lines 278-329: build one block dictionary. -/
def buildBlockData (i : Nat) (b : VBlock α) : BlockData α :=
  ⟨i, b.confidence, get_bounding_box b.boundingBox,
    b.paragraphs.enum.map (fun x => buildParaData x.1 x.2)⟩

/-- Lines 269-329: the per-page dictionary; blocks of every annotation
page are appended into the single `blocks` list, each page's blocks
enumerated from `0` as `enumerate(page.blocks)` does. -/
def buildPageData (pn : Nat) (ft : List Char) (pages : List (VPage α)) : PageData α :=
  ⟨pn, ft, (pages.map (fun pg => pg.blocks.enum.map (fun x => buildBlockData x.1 x.2))).flatten⟩

/-! ## The extraction stage: `PDFHandler.extract_text_from_b64_images`

The loop of lines 243-347 walks the (lexicographically) sorted `.b64`
listing.  For each filename it parses the page number, calls the Vision
client, and on a service error (`response.error.message` non-empty)
`continue`s before anything is appended; otherwise the page's full text is
appended to `all_text`, the structured dictionary to `all_structured_data`
and the timing entry to `page_timings`.  The client call and the clock are
external: the per-filename response and the per-filename durations are
inputs. -/

/-- The timing dictionary of lines 335-341. -/
structure PageTiming where
  page : Nat
  file : List Char
  totalTime : ℚ
  apiCallTime : ℚ
  textLength : Nat
deriving DecidableEq

/-- The external inputs of one `extract_text_from_b64_images` call: the
directory listing and, per filename, the Vision response and the measured
durations. -/
structure ExtractInput (α : Type) where
  files : List (List Char)
  resp : List Char → VisionResponse α
  totalTime : List Char → ℚ
  apiTime : List Char → ℚ

/-- The three accumulators of the loop, as they stand after line 347:
`all_text`, `all_structured_data` and `page_timings`. -/
structure ExtractOutput (α : Type) where
  allText : List (List Char)
  structured : List (PageData α)
  timings : List PageTiming
deriving DecidableEq

/-- `sorted([f for f in os.listdir(...) if f.startswith('output-') and
f.endswith('.b64')])` of lines 230-233. -/
def sortedB64Files (inp : ExtractInput α) : List (List Char) :=
  pySorted (inp.files.filter isB64Name)

/-- What one loop iteration for file `f` appends when the response is
error-free: the full text (empty when the annotation is unset), the page
dictionary and the timing entry.  Lines 266-347. -/
def pageVal (inp : ExtractInput α) (f : List Char) :
    List Char × PageData α × PageTiming :=
  let pn := parsePageNum f
  let r := inp.resp f
  let ft := match r.fullTextAnnot with
    | some a => a.text
    | none => []
  let pgs := match r.fullTextAnnot with
    | some a => a.pages
    | none => []
  (ft, buildPageData pn ft pgs, ⟨pn, f, inp.totalTime f, inp.apiTime f, ft.length⟩)

/-- One loop iteration of lines 243-347: `none` when
`response.error.message` is non-empty (the `continue` of line 263, which
skips every append), otherwise the appended values. -/
def processPage (inp : ExtractInput α) (f : List Char) :
    Option (List Char × PageData α × PageTiming) :=
  if (inp.resp f).errMessage ≠ [] then none else some (pageVal inp f)

/-- `PDFHandler.extract_text_from_b64_images` down to its accumulators:
`none` models the early return of lines 234-236 (no `.b64` files, nothing
written), otherwise the three lists after the loop. -/
def extract_text_from_b64_images (inp : ExtractInput α) : Option (ExtractOutput α) :=
  let fs := sortedB64Files inp
  if fs = [] then none
  else some
    ⟨fs.filterMap (fun f => (processPage inp f).map (fun x => x.1)),
     fs.filterMap (fun f => (processPage inp f).map (fun x => x.2.1)),
     fs.filterMap (fun f => (processPage inp f).map (fun x => x.2.2))⟩

/-- The files the loop appends entries for: the sorted `.b64` listing
restricted to the error-free responses. -/
def okFiles (inp : ExtractInput α) : List (List Char) :=
  (sortedB64Files inp).filter (fun f => (inp.resp f).errMessage.isEmpty)

/-- `'\n\n'.join(all_text)` of line 370: the content of
`extracted_text.txt`. -/
def joinedText (out : ExtractOutput α) : List Char :=
  List.intercalate ['\n', '\n'] out.allText

/-- `sum(timing['total_time'] ...) / len(page_timings)` of line 351. -/
def avgTotalTime (ts : List PageTiming) : ℚ :=
  (ts.map (fun t => t.totalTime)).sum / ts.length

/-- `sum(timing['api_call_time'] ...) / len(page_timings)` of line 352. -/
def avgApiTime (ts : List PageTiming) : ℚ :=
  (ts.map (fun t => t.apiCallTime)).sum / ts.length

/-! ## The run: `PDFHandler.process_pdf` as an artifact-write trace

`process_pdf` (lines 71-212) is embedded down to the trace of artifact
files it causes to be written, in write order.  Page images are written by
the external ImageMagick subprocess when and only when the `convert`
command is actually run; the encoded payloads are written one per loop
iteration of lines 158-173; `extract_text_from_b64_images` writes its
three files (timing, text, structured JSON — lines 356-375) unless it
returned early; and the `finally` block of lines 194-212 writes
`processing_timing.json` on every path that leaves `process_pdf`. -/

/-- The artifact files a run can write. -/
inductive Artifact where
  | pageImage (n : Nat)
  | b64Payload (name : List Char)
  | extractionTiming
  | textFile
  | structuredJson
  | processingTiming
deriving DecidableEq

/-- The environment of one run: the stability samples, the ImageMagick
exit code and the page images the subprocess wrote, the directory
listings the two enumeration points see, which encoded-payload writes
raise an `IOError`, and the extraction stage's external inputs. -/
structure RunEnv (α : Type) where
  samples : List (Option Nat × ℚ)
  convRc : Int
  convPages : List Nat
  listing : List (List Char)
  ioFail : List Char → Bool
  listingB64 : List (List Char)
  resp : List Char → VisionResponse α
  totalTime : List Char → ℚ
  apiTime : List Char → ℚ

/-- The extraction stage's inputs as the run provides them. -/
def extractInputOf (env : RunEnv α) : ExtractInput α :=
  ⟨env.listingB64, env.resp, env.totalTime, env.apiTime⟩

/-- The encoding loop of lines 158-173.  Each iteration stats the image,
encodes it and writes the sibling `.b64` file; an I/O error raises out of
the loop into the handler of lines 188-190, which returns from the run
(flag `true`), so later files are not encoded. -/
def encodeLoop (ioFail : List Char → Bool) : List (List Char) → List Artifact × Bool
  | [] => ([], false)
  | f :: rest =>
    if ioFail f then ([], true)
    else
      let r := encodeLoop ioFail rest
      (Artifact.b64Payload (b64Name f) :: r.1, r.2)

/-- The files `extract_text_from_b64_images` writes: nothing on the
no-`.b64`-files early return, otherwise the extraction timing file, the
text file and the structured JSON, in the write order of lines 356-375. -/
def extractWrites (inp : ExtractInput α) : List Artifact :=
  match extract_text_from_b64_images inp with
  | none => []
  | some _ => [Artifact.extractionTiming, Artifact.textFile, Artifact.structuredJson]

/-- Lines 142-190: writes performed after a successful `convert`: nothing
when the JPG listing is empty (early return at line 150), otherwise the
encoding loop's writes, followed by the extraction stage's writes unless
the encoding loop raised. -/
def encodedWrites (env : RunEnv α) (jpgs : List (List Char)) : List Artifact :=
  if jpgs = [] then []
  else
    (encodeLoop env.ioFail jpgs).1 ++
      (if (encodeLoop env.ioFail jpgs).2 then []
       else extractWrites (extractInputOf env))

/-- Lines 131-190: writes performed once the `convert` subprocess has
returned: nothing more on a timeout (exit code 124, line 133) or any other
nonzero exit code (line 138). -/
def convertedWrites (env : RunEnv α) : List Artifact :=
  if env.convRc = 124 then []
  else if env.convRc ≠ 0 then []
  else encodedWrites env (pySorted (env.listing.filter isJpgName))

/-- `PDFHandler.process_pdf` down to its artifact-write trace.  `none`
models the diverging case where the stability loop outlives the sample
trace (the run never finishes).  An unstable file returns at line 79; the
`convert` subprocess writes `env.convPages` page images whenever it is
run.  Every returning path still runs the `finally` block, which writes
`processing_timing.json`. -/
def processPdfArtifacts (env : RunEnv α) : Option (List Artifact) :=
  match is_file_stable defaultStablePeriod initStab env.samples with
  | none => none
  | some false => some [Artifact.processingTiming]
  | some true =>
    some ((env.convPages.map Artifact.pageImage) ++ convertedWrites env ++
      [Artifact.processingTiming])

/-! ## Names of single-digit page artifacts

`convert` is invoked with the output pattern `output-%d.jpg` (line 114),
so a document of at most ten pages yields only single-digit page indices;
`mkOutputName i` is the `.b64` sibling `output-<i>.b64` for a single
digit `i`. -/

/-- The filename `output-<i>.b64` for a single-digit page index. -/
def mkOutputName (i : Fin 10) : List Char :=
  "output-".toList ++ [Char.ofNat (48 + i.val)] ++ ".b64".toList

/-! ## Concrete runs used to instantiate the theorems -/

/-- A run whose input file vanishes at the very first stability poll. -/
def envVanish : RunEnv Unit :=
  ⟨[(none, 0)], 0, [], [], fun _ => false, [],
   fun _ => ⟨[], none⟩, fun _ => 0, fun _ => 0⟩

/-- A run with a stable input, a successful conversion into two page
images, and an I/O error while writing the first page's encoded
payload. -/
def envEncodeFail : RunEnv Unit :=
  ⟨[(some 5, 0), (some 5, 1), (some 5, 3)], 0, [0, 1],
   ["output-0.jpg".toList, "output-1.jpg".toList],
   fun f => f == "output-0.jpg".toList,
   [], fun _ => ⟨[], none⟩, fun _ => 0, fun _ => 0⟩

/-- An extraction over pages 2 and 10 (mixed digit widths), both
error-free with no annotation. -/
def inpMixedDigits : ExtractInput Unit :=
  ⟨["output-2.b64".toList, "output-10.b64".toList],
   fun _ => ⟨[], none⟩, fun _ => 0, fun _ => 0⟩

/-- An extraction over single-digit pages 3, 1, 2, all error-free. -/
def inpSingleDigits : ExtractInput Unit :=
  ⟨["output-3.b64".toList, "output-1.b64".toList, "output-2.b64".toList],
   fun _ => ⟨[], none⟩, fun _ => 0, fun _ => 0⟩

/-- An extraction over pages 1, 2, 3 where page 2's Vision call reports a
service error and the others succeed with the text `hi`. -/
def inpPage2Error : ExtractInput Unit :=
  ⟨["output-1.b64".toList, "output-2.b64".toList, "output-3.b64".toList],
   fun f =>
     if f = "output-2.b64".toList then ⟨"boom".toList, none⟩
     else ⟨[], some ⟨"hi".toList, []⟩⟩,
   fun _ => 1, fun _ => 2⟩

/-- An extraction over a single error-free page whose response carries no
full-text annotation. -/
def inpNoAnnot : ExtractInput Unit :=
  ⟨["output-1.b64".toList], fun _ => ⟨[], none⟩, fun _ => 3, fun _ => 4⟩

/-- A two-symbol word: first symbol without a detected break, second with
break type `5` (`LINE_BREAK`). -/
def wordTwoSymbols : VWord Unit :=
  ⟨[⟨"a".toList, (), ⟨⟨0⟩⟩⟩, ⟨"b".toList, (), ⟨⟨5⟩⟩⟩], (), ⟨[]⟩⟩

/-! # Theorems -/

/-! ## Helper lemmas -/

/-- A polling tick that sees size `0` leaves the loop state unchanged. -/
theorem stabStep_zero_state (sp : ℚ) (st : StabState) (t : ℚ) :
    stabStep sp st (some 0, t) = StabOut.cont st := rfl

/-- Dropping a trailing space does not change the right strip. -/
theorem rstripL_append_space (s : List Char) : rstripL (s ++ [' ']) = rstripL s := by
  simp [rstripL, List.dropWhile_cons]

/-- Dropping a trailing space does not change `strip`. -/
theorem pyStrip_append_space (s : List Char) : pyStrip (s ++ [' ']) = pyStrip s := by
  rw [pyStrip, pyStrip, rstripL_append_space]

/-- The loop accumulator "every text followed by one space" equals the
single-space join followed by one final space, on a nonempty list. -/
theorem flatten_map_space :
    ∀ (w : List Char) (ws : List (List Char)),
      ((w :: ws).map (fun x => x ++ [' '])).flatten = joinWithSpaces (w :: ws) ++ [' ']
  | _, [] => by simp [joinWithSpaces]
  | w, w2 :: ws => by
    have ih := flatten_map_space w2 ws
    simp only [List.map_cons, List.flatten_cons] at ih ⊢
    rw [ih]
    simp [joinWithSpaces]

/-- Base64 alphabet characters decode back to their 6-bit value. -/
theorem decB64_encB64 {n : Nat} (h : n < 64) : decB64 (encB64 n) = n := by
  have : ∀ i : Fin 64, decB64 (encB64 i.val) = i.val := by decide
  exact this ⟨n, h⟩

/-- No alphabet character is the padding character. -/
theorem encB64_ne_pad {n : Nat} (h : n < 64) : encB64 n ≠ '=' := by
  have : ∀ i : Fin 64, encB64 i.val ≠ '=' := by decide
  exact this ⟨n, h⟩

/-! ## C9 — base64 round trip -/

/-- C9: encoding any byte sequence of a page image with
`PDFHandler.jpg_to_base64` and decoding the payload with
`base64.b64decode` returns the original bytes unchanged. -/
theorem b64_round_trip (l : List Nat) (h : ∀ x ∈ l, x < 256) :
    b64decode (jpg_to_base64 l) = l := by
  show b64decode (b64encode l) = l
  induction l using b64encode.induct with
  | case1 => rfl
  | case2 a =>
    have ha : a < 256 := h a (by simp)
    rw [b64encode, b64decode]
    rw [if_pos rfl]
    rw [decB64_encB64 (by omega), decB64_encB64 (by omega)]
    simp only [List.cons.injEq, and_true]
    omega
  | case3 a b =>
    have ha : a < 256 := h a (by simp)
    have hb : b < 256 := h b (by simp)
    rw [b64encode, b64decode]
    rw [if_neg (encB64_ne_pad (by omega)), if_pos rfl]
    rw [decB64_encB64 (by omega), decB64_encB64 (by omega), decB64_encB64 (by omega)]
    simp only [List.cons.injEq, and_true]
    omega
  | case4 a b c rest ih =>
    have ha : a < 256 := h a (by simp)
    have hb : b < 256 := h b (by simp)
    have hc : c < 256 := h c (by simp)
    have hrest : ∀ x ∈ rest, x < 256 := fun x hx => h x (by simp [hx])
    rw [b64encode, b64decode]
    rw [if_neg (encB64_ne_pad (by omega)), if_neg (encB64_ne_pad (by omega))]
    rw [decB64_encB64 (by omega), decB64_encB64 (by omega),
        decB64_encB64 (by omega), decB64_encB64 (by omega)]
    rw [ih hrest]
    simp only [List.cons.injEq, and_true]
    refine ⟨by omega, by omega, by omega⟩

/-- Witness for C9 at the concrete bytes `[72, 105, 33, 200]`. -/
theorem b64_round_trip_witness :
    (∀ x ∈ [72, 105, 33, 200], x < 256) ∧
      b64decode (jpg_to_base64 [72, 105, 33, 200]) = [72, 105, 33, 200] :=
  ⟨by decide, b64_round_trip [72, 105, 33, 200] (by decide)⟩

/-! ## C5 — word and paragraph text reconstruction -/

/-- C5: in the built structured model, a paragraph's text is its words'
texts joined by single spaces and stripped, and a word's text is the
ordered concatenation of its symbols' texts with no separator. -/
theorem word_paragraph_text_reconstruction (α : Type) (i : Nat) (p : VPara α) :
    (buildParaData i p).text = pyStrip (joinWithSpaces (p.words.map wordText)) ∧
      ∀ (j : Nat) (w : VWord α),
        (buildWordData j w).text = (w.symbols.map (fun s => s.text)).flatten := by
  refine ⟨?_, fun j w => rfl⟩
  show pyStrip (paraTextRaw p.words) = _
  rw [paraTextRaw]
  have hm : p.words.map (fun w => wordText w ++ [' ']) =
      (p.words.map wordText).map (fun x => x ++ [' ']) := by
    rw [List.map_map]; rfl
  rw [hm]
  cases hws : p.words.map wordText with
  | nil => rfl
  | cons w ws => rw [flatten_map_space, pyStrip_append_space]

/-! ## C8 — break tags present exactly for detected breaks -/

/-- C8: a symbol entry of the built word carries a `break_type` tag if and
only if the Vision symbol's detected break type is nonzero; no break means
no tag at all. -/
theorem break_tag_iff_nonzero (α : Type) (j k : Nat) (w : VWord α)
    (sd : SymbolData α) (s : VSymbol α)
    (hsd : ((buildWordData j w).symbols)[k]? = some sd)
    (hs : (w.symbols)[k]? = some s) :
    (sd.breakType ≠ none ↔ s.property.detectedBreak.btype ≠ 0) := by
  have hmap : (buildWordData j w).symbols = w.symbols.map buildSymbolData := rfl
  rw [hmap, List.getElem?_map, hs] at hsd
  simp only [Option.map_some', Option.some.injEq] at hsd
  subst hsd
  by_cases hb : s.property.detectedBreak.btype = 0
  · simp [buildSymbolData, hb]
  · simp [buildSymbolData, hb]

/-- Witness for C8 at a concrete two-symbol word, index 1 (break type 5). -/
theorem break_tag_iff_nonzero_witness :
    ((buildWordData 0 wordTwoSymbols).symbols)[1]? =
        some ⟨"b".toList, (), some "LINE_BREAK".toList⟩ ∧
      (wordTwoSymbols.symbols)[1]? = some ⟨"b".toList, (), ⟨⟨5⟩⟩⟩ ∧
      ((some "LINE_BREAK".toList : Option (List Char)) ≠ none ↔ (5 : Nat) ≠ 0) :=
  ⟨by decide, by decide,
    break_tag_iff_nonzero Unit 0 1 wordTwoSymbols
      ⟨"b".toList, (), some "LINE_BREAK".toList⟩ ⟨"b".toList, (), ⟨⟨5⟩⟩⟩
      (by decide) (by decide)⟩

/-! ## C7 — a zero-byte file is never declared stable -/

/-- C7: over any trace in which every sample observes size `0`, the
stability loop never returns `true` (it stays polling forever). -/
theorem never_stable_at_zero (sp : ℚ) (st : StabState)
    (samples : List (Option Nat × ℚ)) (h : ∀ s ∈ samples, s.1 = some 0) :
    is_file_stable sp st samples ≠ some true := by
  induction samples generalizing st with
  | nil => simp [is_file_stable]
  | cons s rest ih =>
    obtain ⟨sz, t⟩ := s
    have hs : sz = some 0 := h (sz, t) (by simp)
    subst hs
    rw [is_file_stable, stabStep_zero_state]
    exact ih st (fun x hx => h x (List.mem_cons_of_mem _ hx))

/-- Witness for C7 at a concrete all-zero trace. -/
theorem never_stable_at_zero_witness :
    (∀ s ∈ ([(some 0, 0), (some 0, 1), (some 0, 100)] : List (Option Nat × ℚ)),
        s.1 = some 0) ∧
      is_file_stable defaultStablePeriod initStab
        [(some 0, 0), (some 0, 1), (some 0, 100)] ≠ some true :=
  ⟨by simp, never_stable_at_zero defaultStablePeriod initStab _ (by simp)⟩

/-! ## C6 — what a zero-size sample actually does -/

/-- C6 counterexample: with quiet period 2, the trace sizes
`5, 5, 0, 5` at times `0, 1, 2, 3` is declared stable at time `3`, only
one second after the zero-size sample — the zero-size sample did not
restart the quiet period. -/
theorem zero_sample_no_fresh_quiet_period :
    is_file_stable defaultStablePeriod initStab
        [(some 5, 0), (some 5, 1), (some 0, 2), (some 5, 3)] = some true ∧
      (3 : ℚ) - 2 < defaultStablePeriod := by
  constructor
  · norm_num [is_file_stable, stabStep, initStab, defaultStablePeriod]
  · norm_num [defaultStablePeriod]

/-- C6 amended: a zero-size sample is skipped without touching the loop
state — `stableSince` (and `lastSize`) keep their previous values, so no
fresh quiet period is required after a zero-size dip. -/
theorem zero_size_sample_keeps_state (sp : ℚ) (st : StabState) (t : ℚ) :
    stabStep sp st (some 0, t) = StabOut.cont st := rfl

/-! ## C1 — a vanished input aborts the run -/

/-- C1 amended: when the stability check fails (file vanished before the
quiet period elapsed), the run writes no page image, no encoded payload,
no text file, no structured JSON and no extraction-timing file — but the
`finally` block still writes the overall `processing_timing.json`. -/
theorem stability_lost_only_processing_timing (α : Type) (env : RunEnv α)
    (h : is_file_stable defaultStablePeriod initStab env.samples = some false) :
    processPdfArtifacts env = some [Artifact.processingTiming] := by
  rw [processPdfArtifacts, h]

/-- Witness for the amended C1 at a run whose file vanishes at the first
poll. -/
theorem stability_lost_only_processing_timing_witness :
    is_file_stable defaultStablePeriod initStab envVanish.samples = some false ∧
      processPdfArtifacts envVanish = some [Artifact.processingTiming] :=
  ⟨rfl, stability_lost_only_processing_timing Unit envVanish rfl⟩

/-- C1 counterexample: on the vanished-file run the artifact trace is not
empty — `processing_timing.json` is written by the `finally` block, so "no
timing file" is false. -/
theorem stability_lost_timing_artifact_written :
    processPdfArtifacts envVanish = some [Artifact.processingTiming] ∧
      Artifact.processingTiming ∈ [Artifact.processingTiming] :=
  ⟨rfl, by simp⟩

/-! ## Extraction-loop characterisation -/

/-- An error-free iteration appends the page's values. -/
theorem processPage_ok {α : Type} {inp : ExtractInput α} {f : List Char}
    (h : (inp.resp f).errMessage = []) : processPage inp f = some (pageVal inp f) := by
  simp [processPage, h]

/-- An iteration whose response reports an error appends nothing. -/
theorem processPage_err {α : Type} {inp : ExtractInput α} {f : List Char}
    (h : (inp.resp f).errMessage ≠ []) : processPage inp f = none := by
  simp [processPage, h]

/-- The loop's accumulator is the map of the per-page values over the
error-free files, in listing order. -/
theorem filterMap_processPage {α β : Type} (inp : ExtractInput α)
    (g : List Char × PageData α × PageTiming → β) :
    ∀ fs : List (List Char),
      fs.filterMap (fun f => (processPage inp f).map g) =
        (fs.filter (fun f => (inp.resp f).errMessage.isEmpty)).map
          (fun f => g (pageVal inp f))
  | [] => rfl
  | f :: fs => by
    have ih := filterMap_processPage inp g fs
    by_cases h : (inp.resp f).errMessage = []
    · rw [List.filterMap_cons, processPage_ok h, List.filter_cons]
      simp only [h, List.isEmpty_nil, if_true, Option.map_some', List.map_cons, ih]
    · rw [List.filterMap_cons, processPage_err h, List.filter_cons]
      have : (inp.resp f).errMessage.isEmpty = false := by
        simpa [List.isEmpty_iff] using h
      simp only [this, Bool.false_eq_true, if_false, ih, Option.map_none']

/-- With at least one `.b64` file, `extract_text_from_b64_images` runs to
completion and each accumulator is the map over the error-free files. -/
theorem extract_eq {α : Type} (inp : ExtractInput α) (h : sortedB64Files inp ≠ []) :
    extract_text_from_b64_images inp = some
      ⟨(okFiles inp).map (fun f => (pageVal inp f).1),
       (okFiles inp).map (fun f => (pageVal inp f).2.1),
       (okFiles inp).map (fun f => (pageVal inp f).2.2)⟩ := by
  have h1 := filterMap_processPage inp (fun x => x.1) (sortedB64Files inp)
  have h2 := filterMap_processPage inp (fun x => x.2.1) (sortedB64Files inp)
  have h3 := filterMap_processPage inp (fun x => x.2.2) (sortedB64Files inp)
  simp only [extract_text_from_b64_images]
  rw [if_neg h, h1, h2, h3]
  rfl

/-! ## C4 — a page-level Vision error skips that page only -/

/-- C4: whenever the sorted `.b64` listing is nonempty, the extraction
runs to completion; its text, structured and timing accumulators hold
exactly the entries of the error-free pages (in listing order), and no
timing entry names a file whose Vision response reported an error. -/
theorem vision_error_pages_skipped (α : Type) (inp : ExtractInput α)
    (h : sortedB64Files inp ≠ []) :
    ∃ out, extract_text_from_b64_images inp = some out ∧
      out.allText = (okFiles inp).map (fun f => (pageVal inp f).1) ∧
      out.structured = (okFiles inp).map (fun f => (pageVal inp f).2.1) ∧
      out.timings = (okFiles inp).map (fun f => (pageVal inp f).2.2) ∧
      ∀ f ∈ sortedB64Files inp, (inp.resp f).errMessage ≠ [] →
        ∀ t ∈ out.timings, t.file ≠ f := by
  refine ⟨_, extract_eq inp h, rfl, rfl, rfl, ?_⟩
  intro f _ herr t ht hteq
  obtain ⟨g, hg, hgt⟩ := List.mem_map.mp ht
  have hgfile : ((pageVal inp g).2.2).file = g := rfl
  have hgok : (inp.resp g).errMessage = [] := by
    have := (List.mem_filter.mp hg).2
    simpa [List.isEmpty_iff] using this
  rw [← hgt] at hteq
  rw [hgfile] at hteq
  exact herr (hteq ▸ hgok)

/-- Witness for C4: pages 1, 2, 3 where page 2's call errors — the
outputs hold pages 1 and 3 only and no timing entry names page 2's
file. -/
theorem vision_error_pages_skipped_witness :
    sortedB64Files inpPage2Error ≠ [] ∧
      ∃ out, extract_text_from_b64_images inpPage2Error = some out ∧
        out.allText = (okFiles inpPage2Error).map (fun f => (pageVal inpPage2Error f).1) ∧
        out.structured =
          (okFiles inpPage2Error).map (fun f => (pageVal inpPage2Error f).2.1) ∧
        out.timings =
          (okFiles inpPage2Error).map (fun f => (pageVal inpPage2Error f).2.2) ∧
        ∀ f ∈ sortedB64Files inpPage2Error,
          (inpPage2Error.resp f).errMessage ≠ [] →
            ∀ t ∈ out.timings, t.file ≠ f :=
  ⟨by decide, vision_error_pages_skipped Unit inpPage2Error (by decide)⟩

/-! ## C10 — an error-free page with no annotation still counts -/

/-- C10: a page whose response reports no error but carries no full-text
annotation is still appended everywhere: its structured entry has empty
`full_text` and no blocks, its timing entry records text length `0`, it
contributes an empty segment to the concatenated text, and it is counted
among the pages the timing averages divide by. -/
theorem no_annotation_page_counted (α : Type) (inp : ExtractInput α) (f : List Char)
    (hf : f ∈ sortedB64Files inp)
    (herr : (inp.resp f).errMessage = [])
    (hfta : (inp.resp f).fullTextAnnot = none) :
    ∃ out, extract_text_from_b64_images inp = some out ∧
      (⟨parsePageNum f, [], []⟩ : PageData α) ∈ out.structured ∧
      (⟨parsePageNum f, f, inp.totalTime f, inp.apiTime f, 0⟩ : PageTiming) ∈
        out.timings ∧
      ([] : List Char) ∈ out.allText ∧
      out.timings.length = (okFiles inp).length := by
  have hne : sortedB64Files inp ≠ [] := by
    intro hz
    rw [hz] at hf
    exact List.not_mem_nil f hf
  have hok : f ∈ okFiles inp :=
    List.mem_filter.mpr ⟨hf, by simp [herr]⟩
  have h1 : (pageVal inp f).1 = [] := by simp [pageVal, hfta]
  have h2 : (pageVal inp f).2.1 = ⟨parsePageNum f, [], []⟩ := by
    simp [pageVal, hfta, buildPageData]
  have h3 : (pageVal inp f).2.2 =
      ⟨parsePageNum f, f, inp.totalTime f, inp.apiTime f, 0⟩ := by
    simp [pageVal, hfta]
  refine ⟨_, extract_eq inp hne, ?_, ?_, ?_, ?_⟩
  · exact h2 ▸ List.mem_map_of_mem _ hok
  · exact h3 ▸ List.mem_map_of_mem _ hok
  · exact h1 ▸ List.mem_map_of_mem _ hok
  · exact List.length_map _ _

/-- Witness for C10 at a single error-free page with no annotation. -/
theorem no_annotation_page_counted_witness :
    ("output-1.b64".toList ∈ sortedB64Files inpNoAnnot ∧
        (inpNoAnnot.resp "output-1.b64".toList).errMessage = [] ∧
        (inpNoAnnot.resp "output-1.b64".toList).fullTextAnnot = none) ∧
      ∃ out, extract_text_from_b64_images inpNoAnnot = some out ∧
        (⟨parsePageNum "output-1.b64".toList, [], []⟩ : PageData Unit) ∈
          out.structured ∧
        (⟨parsePageNum "output-1.b64".toList, "output-1.b64".toList,
            inpNoAnnot.totalTime "output-1.b64".toList,
            inpNoAnnot.apiTime "output-1.b64".toList, 0⟩ : PageTiming) ∈
          out.timings ∧
        ([] : List Char) ∈ out.allText ∧
        out.timings.length = (okFiles inpNoAnnot).length :=
  ⟨⟨by decide, rfl, rfl⟩,
    no_annotation_page_counted Unit inpNoAnnot "output-1.b64".toList
      (by decide) rfl rfl⟩

/-! ## C3 — an encoding I/O error aborts the whole run -/

/-- The encoding loop stops at the first failing file: the files before it
are written, the failing file and all files after it are not, and the
exception flag is raised. -/
theorem encodeLoop_first_failure (ioFail : List Char → Bool) (f : List Char)
    (hf : ioFail f = true) :
    ∀ pre : List (List Char), (∀ g ∈ pre, ioFail g = false) → ∀ post,
      encodeLoop ioFail (pre ++ f :: post) =
        (pre.map (fun g => Artifact.b64Payload (b64Name g)), true)
  | [], _, post => by simp [encodeLoop, hf]
  | g :: gs, hpre, post => by
    have hg : ioFail g = false := hpre g (by simp)
    have ih := encodeLoop_first_failure ioFail f hf gs
      (fun x hx => hpre x (List.mem_cons_of_mem _ hx)) post
    simp only [List.cons_append, encodeLoop, hg, Bool.false_eq_true, if_false,
      List.append_eq, ih, List.map_cons]

/-- C3 amended: an I/O error while persisting one page's encoded payload
is fatal for the whole run, not just that page — the earlier pages'
payloads are the only ones written, no later page is encoded, and neither
recognition nor aggregation runs (only the `finally` timing file is still
written). -/
theorem encoding_io_error_aborts_run (α : Type) (env : RunEnv α)
    (pre post : List (List Char)) (f : List Char)
    (hstable : is_file_stable defaultStablePeriod initStab env.samples = some true)
    (hrc : env.convRc = 0)
    (hjpgs : pySorted (env.listing.filter isJpgName) = pre ++ f :: post)
    (hpre : ∀ g ∈ pre, env.ioFail g = false)
    (hf : env.ioFail f = true) :
    processPdfArtifacts env =
      some (env.convPages.map Artifact.pageImage ++
        pre.map (fun g => Artifact.b64Payload (b64Name g)) ++
        [Artifact.processingTiming]) := by
  rw [processPdfArtifacts, hstable]
  rw [convertedWrites, hrc]
  rw [if_neg (by decide), if_neg (by simp)]
  rw [hjpgs, encodedWrites]
  rw [if_neg (by simp), encodeLoop_first_failure env.ioFail f hf pre hpre post]
  simp

/-- Witness for the amended C3: a stable two-page run whose first
encoded-payload write fails — only the page images and the overall timing
file get written. -/
theorem encoding_io_error_aborts_run_witness :
    (is_file_stable defaultStablePeriod initStab envEncodeFail.samples = some true ∧
        envEncodeFail.ioFail "output-0.jpg".toList = true) ∧
      processPdfArtifacts envEncodeFail =
        some (envEncodeFail.convPages.map Artifact.pageImage ++
          ([] : List (List Char)).map (fun g => Artifact.b64Payload (b64Name g)) ++
          [Artifact.processingTiming]) :=
  ⟨⟨by norm_num [is_file_stable, stabStep, initStab, defaultStablePeriod, envEncodeFail],
      by decide⟩,
    encoding_io_error_aborts_run Unit envEncodeFail [] ["output-1.jpg".toList]
      "output-0.jpg".toList
      (by norm_num [is_file_stable, stabStep, initStab, defaultStablePeriod, envEncodeFail])
      rfl (by decide) (by simp) (by decide)⟩

/-- C3 counterexample: in the concrete two-page run whose first
encoded-payload write raises, the second page is never encoded and no
text file is produced — the failure was not isolated to the failing
page. -/
theorem encoding_io_error_counterexample :
    processPdfArtifacts envEncodeFail =
        some [Artifact.pageImage 0, Artifact.pageImage 1, Artifact.processingTiming] ∧
      Artifact.b64Payload (b64Name "output-1.jpg".toList) ∉
        [Artifact.pageImage 0, Artifact.pageImage 1, Artifact.processingTiming] ∧
      Artifact.textFile ∉
        [Artifact.pageImage 0, Artifact.pageImage 1, Artifact.processingTiming] := by
  refine ⟨?_, by decide, by decide⟩
  have hst : is_file_stable defaultStablePeriod initStab envEncodeFail.samples =
      some true := by
    norm_num [is_file_stable, stabStep, initStab, defaultStablePeriod, envEncodeFail]
  rw [processPdfArtifacts, hst]
  decide


/-! ## C2 — page ordering is lexicographic, not numeric -/

/-- A cons is below a cons lexicographically when the head code point is
smaller, or the heads agree and the tails compare. -/
theorem strLe_cons_iff (a b : Char) (as bs : List Char) :
    strLe (a :: as) (b :: bs) = true ↔
      a.toNat < b.toNat ∨ (a.toNat = b.toNat ∧ strLe as bs = true) := by
  simp only [strLe]
  by_cases h1 : a.toNat < b.toNat
  · simp [h1]
  · rw [if_neg h1]
    by_cases h2 : b.toNat < a.toNat
    · rw [if_pos h2]
      simp only [Bool.false_eq_true, false_iff]
      rintro (h | ⟨he, _⟩) <;> omega
    · rw [if_neg h2]
      have he : a.toNat = b.toNat := by omega
      constructor
      · intro h3
        exact Or.inr ⟨he, h3⟩
      · rintro (h | ⟨_, h3⟩)
        · omega
        · exact h3

/-- `strLe` is total. -/
theorem strLe_total : ∀ a b : List Char, strLe a b = true ∨ strLe b a = true
  | [], _ => Or.inl rfl
  | _ :: _, [] => Or.inr rfl
  | a :: as, b :: bs => by
    rcases Nat.lt_trichotomy a.toNat b.toNat with h | h | h
    · exact Or.inl ((strLe_cons_iff a b as bs).mpr (Or.inl h))
    · rcases strLe_total as bs with h2 | h2
      · exact Or.inl ((strLe_cons_iff a b as bs).mpr (Or.inr ⟨h, h2⟩))
      · exact Or.inr ((strLe_cons_iff b a bs as).mpr (Or.inr ⟨h.symm, h2⟩))
    · exact Or.inr ((strLe_cons_iff b a bs as).mpr (Or.inl h))

/-- `strLe` is transitive. -/
theorem strLe_trans :
    ∀ a b c : List Char, strLe a b = true → strLe b c = true → strLe a c = true
  | [], _, _, _, _ => rfl
  | _ :: _, [], _, h1, _ => by simp [strLe] at h1
  | _ :: _, _ :: _, [], _, h2 => by simp [strLe] at h2
  | a :: as, b :: bs, c :: cs, h1, h2 => by
    rcases (strLe_cons_iff a b as bs).mp h1 with hl1 | ⟨he1, hr1⟩ <;>
      rcases (strLe_cons_iff b c bs cs).mp h2 with hl2 | ⟨he2, hr2⟩
    · exact (strLe_cons_iff a c as cs).mpr (Or.inl (by omega))
    · exact (strLe_cons_iff a c as cs).mpr (Or.inl (by omega))
    · exact (strLe_cons_iff a c as cs).mpr (Or.inl (by omega))
    · exact (strLe_cons_iff a c as cs).mpr
        (Or.inr ⟨by omega, strLe_trans as bs cs hr1 hr2⟩)

/-- The modelled Python `sorted` really sorts by the lexicographic
order. -/
theorem pySorted_sorted (l : List (List Char)) :
    List.Sorted (fun a b => strLe a b = true) (pySorted l) := by
  have hT : IsTotal (List Char) (fun a b => strLe a b = true) := ⟨strLe_total⟩
  have hR : IsTrans (List Char) (fun a b => strLe a b = true) := ⟨strLe_trans⟩
  exact List.sorted_insertionSort _ l

/-- Single-digit output names decode to their digit. -/
theorem mkOutputName_page : ∀ i : Fin 10, parsePageNum (mkOutputName i) = i.val := by
  decide

/-- Lexicographic comparison of single-digit output names is digit
comparison. -/
theorem mkOutputName_le :
    ∀ i j : Fin 10, (strLe (mkOutputName i) (mkOutputName j) = true ↔ i.val ≤ j.val) := by
  decide

/-- C2 counterexample: for pages 2 and 10, the extraction orders the
output artifacts `[10, 2]` — lexicographic filename order, which is not
ascending page order. -/
theorem lexicographic_order_counterexample :
    (extract_text_from_b64_images inpMixedDigits).map
        (fun o => o.structured.map (fun p => p.pageNumber)) = some [10, 2] ∧
      ¬ List.Sorted (fun a b => a ≤ b) [10, 2] :=
  ⟨by decide, by decide⟩

/-- C2 amended: pages are processed in lexicographic filename order (the
plain `sorted` of the source); when every listed file is a single-digit
`output-<d>.b64` name this coincides with ascending numeric page order,
in the sorted listing as well as in the structured entries and the timing
entries of the extraction output. -/
theorem single_digit_pages_ascending (α : Type) (inp : ExtractInput α)
    (h : ∀ f ∈ inp.files, ∃ i : Fin 10, f = mkOutputName i) :
    List.Sorted (fun a b => a ≤ b) ((sortedB64Files inp).map parsePageNum) ∧
      ∀ out, extract_text_from_b64_images inp = some out →
        List.Sorted (fun a b => a ≤ b) (out.structured.map (fun p => p.pageNumber)) ∧
          List.Sorted (fun a b => a ≤ b) (out.timings.map (fun t => t.page)) := by
  have hmemS : ∀ f ∈ sortedB64Files inp, ∃ i : Fin 10, f = mkOutputName i := by
    intro f hf
    have hfl : f ∈ inp.files.filter isB64Name := (List.mem_insertionSort _).mp hf
    exact h f (List.mem_of_mem_filter hfl)
  have hmain : List.Sorted (fun a b => a ≤ b)
      ((sortedB64Files inp).map parsePageNum) := by
    rw [List.Sorted, List.pairwise_map]
    refine (pySorted_sorted _).imp_of_mem ?_
    intro a b ha hb hab
    obtain ⟨i, rfl⟩ := hmemS a ha
    obtain ⟨j, rfl⟩ := hmemS b hb
    rw [mkOutputName_page i, mkOutputName_page j]
    exact (mkOutputName_le i j).mp hab
  refine ⟨hmain, ?_⟩
  intro out hout
  have hne : sortedB64Files inp ≠ [] := by
    intro hz
    rw [extract_text_from_b64_images] at hout
    simp [hz] at hout
  rw [extract_eq inp hne] at hout
  have hout2 := (Option.some.injEq _ _).mp hout
  subst hout2
  have hsub : ((okFiles inp).map parsePageNum).Sublist
      ((sortedB64Files inp).map parsePageNum) :=
    (List.filter_sublist _).map parsePageNum
  constructor
  · have hmm : (((okFiles inp).map (fun f => (pageVal inp f).2.1)).map
        (fun p => p.pageNumber)) = (okFiles inp).map parsePageNum := by
      rw [List.map_map]
      rfl
    show List.Sorted (fun a b => a ≤ b)
      (((okFiles inp).map (fun f => (pageVal inp f).2.1)).map (fun p => p.pageNumber))
    rw [hmm]
    exact List.Pairwise.sublist hsub hmain
  · have hmm : (((okFiles inp).map (fun f => (pageVal inp f).2.2)).map
        (fun t => t.page)) = (okFiles inp).map parsePageNum := by
      rw [List.map_map]
      rfl
    show List.Sorted (fun a b => a ≤ b)
      (((okFiles inp).map (fun f => (pageVal inp f).2.2)).map (fun t => t.page))
    rw [hmm]
    exact List.Pairwise.sublist hsub hmain

/-- Witness for the amended C2: the single-digit listing `3, 1, 2` is
processed as pages `1, 2, 3`, ascending. -/
theorem single_digit_pages_ascending_witness :
    (∀ f ∈ inpSingleDigits.files, ∃ i : Fin 10, f = mkOutputName i) ∧
      (List.Sorted (fun a b => a ≤ b)
          ((sortedB64Files inpSingleDigits).map parsePageNum) ∧
        ∀ out, extract_text_from_b64_images inpSingleDigits = some out →
          List.Sorted (fun a b => a ≤ b)
              (out.structured.map (fun p => p.pageNumber)) ∧
            List.Sorted (fun a b => a ≤ b) (out.timings.map (fun t => t.page))) :=
  ⟨by decide, single_digit_pages_ascending Unit inpSingleDigits (by decide)⟩

end PdfWatcher
